import Mathlib

/-!
Shallow embedding of the ADHDBOARD real-time room synchronization engine
(src/server.js: the socket.io server, lines 58-175, and the browser client
bundled in the same file).  JavaScript numbers are modelled as rationals,
nullable fields as `Option`, the process-wide `roomStorage` object as an
association list keyed by room id, and the socket.io room membership
adapter as an association list from room id to the member socket ids.
-/

namespace ADHDBoard

/-- A 2-D point `{x, y}` as produced by the pointer handlers. -/
structure Point where
  x : ℚ
  y : ℚ
deriving DecidableEq, Repr

/-- A laser-pointer payload `{points, timestamp}` (client, src lines 1732-1738). -/
structure Laser where
  points : List Point
  timestamp : Nat
deriving DecidableEq, Repr

/-- A chat entry `{text, senderId, timestamp}` built by the chat_message
handler (src lines 109-113). -/
structure ChatEntry where
  text : String
  senderId : String
  timestamp : Nat
deriving DecidableEq, Repr

/-- A tic-tac-toe mark, the strings `'X'` / `'O'` of the source. -/
inductive Mark where
  | X
  | O
deriving DecidableEq, Repr

/-- The other mark: `game.currentPlayer === 'X' ? 'O' : 'X'` (src line 2025). -/
def Mark.other : Mark → Mark
  | .X => .O
  | .O => .X

/-- The `winner` field of a tic-tac-toe element: `'X'`, `'O'` or `'Draw'`. -/
inductive TTTOutcome where
  | mark (m : Mark)
  | draw
deriving DecidableEq, Repr

/-- A tic-tac-toe game element (created at src lines 1914-1926).  The board is
the 9-slot array `Array(9).fill(null)`, a slot holding `none` for `null`. -/
structure TicTacToe where
  x : ℚ
  y : ℚ
  size : ℚ
  board : List (Option Mark)
  currentPlayer : Mark
  winner : Option TTTOutcome
  winLine : Option (Nat × Nat × Nat)
  playerX : Option String
  playerO : Option String
deriving DecidableEq, Repr

/-- The ping-pong ball `{x, y, dx, dy, radius}` (src line 1944). -/
structure Ball where
  x : ℚ
  y : ℚ
  dx : ℚ
  dy : ℚ
  radius : ℚ
deriving DecidableEq, Repr

/-- A ping-pong paddle `{x, y, width, height, score}` (src lines 1945-1946). -/
structure Paddle where
  x : ℚ
  y : ℚ
  width : ℚ
  height : ℚ
  score : Nat
deriving DecidableEq, Repr

/-- The ping-pong `winner` field: `'left'` or `'right'`. -/
inductive Side where
  | left
  | right
deriving DecidableEq, Repr

/-- A ping-pong game element (created at src lines 1937-1953). -/
structure PingPong where
  x : ℚ
  y : ℚ
  width : ℚ
  height : ℚ
  ball : Ball
  paddleLeft : Paddle
  paddleRight : Paddle
  playerLeft : Option String
  playerRight : Option String
  gameStarted : Bool
  paused : Bool
  winner : Option Side
  lastUpdate : ℚ
deriving DecidableEq, Repr

/-- A `type: 'game'` element, discriminated by `gameType`. -/
inductive GameElem where
  | tictactoe (g : TicTacToe)
  | pingpong (g : PingPong)
deriving DecidableEq, Repr

/-- A freehand `type: 'line'` element (created at src lines 1564-1584). -/
structure LineElem where
  color : String
  brushSize : ℚ
  tool : String
  opacity : Option ℚ
  points : List Point
deriving DecidableEq, Repr

/-- Geometry of a recognized `type: 'shape'` element (recognizeShape,
src lines 306-410): a 2-point segment, a rectangle, a triangle, a circle
or an ellipse. -/
inductive ShapeGeom where
  | segment (points : List Point)
  | rect (x y width height : ℚ)
  | triangle (points : List Point)
  | circle (x y radius : ℚ)
  | ellipse (x y radiusX radiusY : ℚ)
deriving DecidableEq, Repr

/-- A `type: 'text'` element. -/
structure TextElem where
  content : String
  x : ℚ
  y : ℚ
  color : String
  textSize : ℚ
deriving DecidableEq, Repr

/-- A `type: 'image'` element. -/
structure ImageElem where
  data : String
  x : ℚ
  y : ℚ
  width : ℚ
  height : ℚ
deriving DecidableEq, Repr

/-- A canvas element, tagged by its `type` field.  The `laser` variant is the
client-side laser path object `{type: 'laser', points, timestamp}`
(src lines 1556-1560); the client keeps these in the separate `laserPaths`
array, never in `paths`, but the variant is included so that the statement
"a laser never appears in a room's elements" is about a representable case. -/
inductive Element where
  | line (l : LineElem)
  | shape (shapeType color : String) (brushSize : ℚ) (geom : ShapeGeom)
  | text (t : TextElem)
  | image (i : ImageElem)
  | laser (l : Laser)
  | game (g : GameElem)
deriving DecidableEq, Repr

/-- Whether an element is a laser path object. -/
def Element.isLaser : Element → Bool
  | .laser _ => true
  | _ => false

/-- Whether an element is a `type: 'game'` element. -/
def Element.isGame : Element → Bool
  | .game _ => true
  | _ => false

/-- Whether an element list contains a laser path object. -/
def containsLaser (es : List Element) : Bool :=
  es.any Element.isLaser

/-- A room record of `roomStorage`: `{elements, chat, background}`. -/
structure Room where
  elements : List Element
  chat : List ChatEntry
  background : String
deriving DecidableEq, Repr

/-- The room record created on first join (src lines 71-77). -/
def Room.fresh : Room :=
  { elements := [], chat := [], background := "dots" }

abbrev RoomId := String
abbrev SocketId := String

/-- Lookup in an association list (a JS object keyed by strings). -/
def alistGet {β : Type} : List (String × β) → String → Option β
  | [], _ => none
  | (k, v) :: rest, key => if k = key then some v else alistGet rest key

/-- Update / insert in an association list (JS `obj[key] = v`). -/
def alistSet {β : Type} : List (String × β) → String → β → List (String × β)
  | [], key, v => [(key, v)]
  | (k, v0) :: rest, key, v =>
      if k = key then (key, v) :: rest else (k, v0) :: alistSet rest key v

/-- The server state: the `roomStorage` table (src line 59) and the
socket.io adapter's room-membership map (which sockets joined which room). -/
structure ServerState where
  roomStorage : List (RoomId × Room)
  rooms : List (RoomId × List SocketId)
deriving DecidableEq, Repr

/-- The member sockets of a room (socket.io adapter). -/
def roomMembers (st : ServerState) (room : RoomId) : List SocketId :=
  (alistGet st.rooms room).getD []

/-- `socket.join(roomId)` — adds the socket to the room's member set
(socket.io keeps a `Set`, so joining twice is a no-op). -/
def socketJoin (st : ServerState) (sock : SocketId) (room : RoomId) : ServerState :=
  let ms := roomMembers st room
  if sock ∈ ms then st
  else { st with rooms := alistSet st.rooms room (ms ++ [sock]) }

/-- A server-to-client message. -/
inductive ServerMsg where
  | canvasData (elements : List Element)
  | chatHistory (chat : List ChatEntry)
  | backgroundUpdated (background : String)
  | elementReceived (element : Element)
  | chatReceived (entry : ChatEntry)
  | laserReceived (laser : Laser)
  | gameMoveReceived (gameIndex : Nat) (game : Element)
deriving DecidableEq, Repr

/-- A client-to-server event, with its payload. -/
inductive ClientEvent where
  | joinRoom (roomId : RoomId)
  | newElement (room : RoomId) (element : Element)
  | fullSync (room : RoomId) (data : List Element)
  | chatMessage (room : RoomId) (text : String)
  | laserPointer (room : RoomId) (laser : Laser)
  | backgroundChange (room : RoomId) (background : String)
  | gameMove (room : RoomId) (gameIndex : Nat) (game : Element)
deriving DecidableEq, Repr

/-- The room a room-scoped event addresses (`join_room` is not room-scoped:
it never requires the room to exist). -/
def eventRoom : ClientEvent → Option RoomId
  | .joinRoom _ => none
  | .newElement room _ => some room
  | .fullSync room _ => some room
  | .chatMessage room _ => some room
  | .laserPointer room _ => some room
  | .backgroundChange room _ => some room
  | .gameMove room _ _ => some room

/-- `socket.to(room).emit(msg)` — one copy of the message per member of the
room other than the sender. -/
def broadcastTo (st : ServerState) (room : RoomId) (sender : SocketId)
    (msg : ServerMsg) : List (SocketId × ServerMsg) :=
  ((roomMembers st room).filter (fun s => decide (s ≠ sender))).map (fun s => (s, msg))

/-- `roomStorage[roomId].background || 'dots'` (src line 82): the only falsy
string is the empty string. -/
def orDots (b : String) : String :=
  if b = "" then "dots" else b

/-- One synchronous run of a socket.io event handler (src lines 66-161),
returning the updated server state and the list of (recipient, message)
emissions.  `now` stands for `Date.now()`.  In `game_move`, the JS guard
`if (roomStorage[room].elements[gameIndex])` tests the truthiness of the
slot; every stored element is a truthy object, so the guard holds exactly
when `gameIndex` is in bounds. -/
def serverStep (sender : SocketId) (now : Nat) (st : ServerState) :
    ClientEvent → ServerState × List (SocketId × ServerMsg)
  | .joinRoom roomId =>
      let st1 := socketJoin st sender roomId
      let st2 :=
        match alistGet st1.roomStorage roomId with
        | none => { st1 with roomStorage := alistSet st1.roomStorage roomId Room.fresh }
        | some _ => st1
      let r := (alistGet st2.roomStorage roomId).getD Room.fresh
      (st2, [(sender, .canvasData r.elements),
             (sender, .chatHistory r.chat),
             (sender, .backgroundUpdated (orDots r.background))])
  | .newElement room element =>
      match alistGet st.roomStorage room with
      | some r =>
          ({ st with roomStorage :=
              alistSet st.roomStorage room { r with elements := r.elements ++ [element] } },
           broadcastTo st room sender (.elementReceived element))
      | none => (st, [])
  | .fullSync room data =>
      match alistGet st.roomStorage room with
      | some r =>
          ({ st with roomStorage :=
              alistSet st.roomStorage room { r with elements := data } },
           broadcastTo st room sender (.canvasData data))
      | none => (st, [])
  | .chatMessage room text =>
      match alistGet st.roomStorage room with
      | some r =>
          let entry : ChatEntry := { text := text, senderId := sender, timestamp := now }
          ({ st with roomStorage :=
              alistSet st.roomStorage room { r with chat := r.chat ++ [entry] } },
           broadcastTo st room sender (.chatReceived entry))
      | none => (st, [])
  | .laserPointer room laser =>
      match alistGet st.roomStorage room with
      | some _ => (st, broadcastTo st room sender (.laserReceived laser))
      | none => (st, [])
  | .backgroundChange room background =>
      match alistGet st.roomStorage room with
      | some r =>
          ({ st with roomStorage :=
              alistSet st.roomStorage room { r with background := background } },
           broadcastTo st room sender (.backgroundUpdated background))
      | none => (st, [])
  | .gameMove room gameIndex game =>
      match alistGet st.roomStorage room with
      | some r =>
          let r1 := if gameIndex < r.elements.length
                    then { r with elements := r.elements.set gameIndex game }
                    else r
          ({ st with roomStorage := alistSet st.roomStorage room r1 },
           broadcastTo st room sender (.gameMoveReceived gameIndex game))
      | none => (st, [])

/-- One inbound event of a trace: the emitting socket, `Date.now()` at
processing time, and the event. -/
structure TraceStep where
  sender : SocketId
  now : Nat
  event : ClientEvent
deriving DecidableEq, Repr

/-- Run a sequence of inbound events through the server, collecting all
emissions (the server is single-threaded: each handler runs to completion). -/
def serverRun (st : ServerState) :
    List TraceStep → ServerState × List (SocketId × ServerMsg)
  | [] => (st, [])
  | step :: rest =>
      let out1 := serverStep step.sender step.now st step.event
      let out2 := serverRun out1.1 rest
      (out2.1, out1.2 ++ out2.2)

/-! ### Client-side model

The browser client mirrors the room's elements in the `paths` array and
suppresses echoes of its own full syncs with the `isLocalUpdate` flag
(src lines 233, 246-278). -/

/-- The client-side state touched by the synchronization handlers. -/
structure ClientState where
  paths : List Element
  isLocalUpdate : Bool
  selectedImage : Option Nat
  isDraggingImage : Bool
  isResizingImage : Bool
deriving DecidableEq, Repr

/-- The `canvas_data` handler (src lines 246-278): while `isLocalUpdate` is
raised the whole update is discarded (early return); otherwise the local
mirror is replaced wholesale and, unless an image drag or resize is in
progress, the selection is cleared.  (Starting ping-pong interval timers and
re-rendering are external effects outside the state model.) -/
def onCanvasData (st : ClientState) (data : List Element) : ClientState :=
  if st.isLocalUpdate then st
  else
    let st1 := { st with paths := data }
    if !st1.isDraggingImage && !st1.isResizingImage then
      { st1 with selectedImage := none }
    else st1

/-- The `game_move_received` handler (src lines 676-695): when the index is
in bounds (`paths[data.gameIndex]` is a truthy object exactly then), the
slot is shallow-merged with the incoming game via
`{...paths[gameIndex], ...data.game}`.  Senders always transmit the complete
game object, so every field of the slot is overwritten and the merge equals
wholesale replacement in this typed model. -/
def onGameMoveReceived (st : ClientState) (gameIndex : Nat) (game : Element) :
    ClientState :=
  if gameIndex < st.paths.length then
    { st with paths := st.paths.set gameIndex game }
  else st

/-- A client-to-server emission from the client model.  The client joins the
numeric room `currentRoom = 1` (src line 184). -/
inductive ClientEmit where
  | fullSync (room : Nat) (data : List Element)
  | newElement (room : Nat) (element : Element)
  | gameMove (room : Nat) (gameIndex : Nat) (game : Element)
  | laserPointer (room : Nat) (laser : Laser)
deriving DecidableEq, Repr

/-- `cleanPathsForSync` (src lines 1846-1852): maps over `paths` copying each
element and deleting the transient `_imgElement` key (a cached DOM image
handle that is not part of the element data model, hence absent from the
typed `Element`). -/
def cleanPathsForSync (paths : List Element) : List Element :=
  paths.map (fun p => p)

/-- The final-sync block of `handlePointerUp` (src lines 1777-1787): when an
image drag or resize with more than 5px of movement ends, `isLocalUpdate` is
raised, a `full_sync` of the whole `paths` array is emitted, and a 500 ms
timeout is scheduled.  Returns the new state, the emissions, and the delay of
the scheduled timeout (if any); the timeout's body is `localUpdateTimeout`. -/
def pointerUpFinalSync (st : ClientState) (moved : ℚ) :
    ClientState × List ClientEmit × Option Nat :=
  if (st.isDraggingImage || st.isResizingImage) && st.selectedImage.isSome
      && decide (moved > 5) then
    ({ st with isLocalUpdate := true }, [.fullSync 1 st.paths], some 500)
  else
    (st, [], none)

/-- The body of the timeout scheduled by `pointerUpFinalSync`
(src lines 1783-1786): lowers `isLocalUpdate`. -/
def localUpdateTimeout (st : ClientState) : ClientState :=
  { st with isLocalUpdate := false }

/-- The body of the `throttledSync` timeout (src lines 1816-1824): emits a
`full_sync` of `cleanPathsForSync()`.  Note that it does not touch
`isLocalUpdate`. -/
def throttledSyncFire (st : ClientState) : ClientState × List ClientEmit :=
  (st, [.fullSync 1 (cleanPathsForSync st.paths)])

/-- `syncToServer` (src lines 1840-1844): emits a `full_sync` of
`cleanPathsForSync()` without touching `isLocalUpdate`. -/
def syncToServer (st : ClientState) : ClientState × List ClientEmit :=
  (st, [.fullSync 1 (cleanPathsForSync st.paths)])

/-! ### Tic-tac-toe click handling (src lines 1969-2041, 2125-2145) -/

/-- The winning lines of `checkTicTacToeWinner` (src lines 2126-2130). -/
def tttLines : List (Nat × Nat × Nat) :=
  [(0, 1, 2), (3, 4, 5), (6, 7, 8), (0, 3, 6), (1, 4, 7), (2, 5, 8), (0, 4, 8), (2, 4, 6)]

/-- `board[a] && board[a] === board[b] && board[a] === board[c]`
(src line 2134). -/
def lineWinner (board : List (Option Mark)) : Nat × Nat × Nat → Option Mark
  | (a, b, c) =>
      match board.getD a none with
      | some m =>
          if board.getD b none = some m ∧ board.getD c none = some m then some m
          else none
      | none => none

/-- `checkTicTacToeWinner` (src lines 2125-2145): the first winning line, or
a draw when every cell is occupied, or nothing. -/
def checkTicTacToeWinner (board : List (Option Mark)) :
    Option (TTTOutcome × Option (Nat × Nat × Nat)) :=
  match tttLines.findSome?
      (fun l => (lineWinner board l).map (fun m => (TTTOutcome.mark m, l))) with
  | some (w, l) => some (w, some l)
  | none =>
      if board.all (fun cell => cell.isSome) then some (.draw, none) else none

/-- The player-assignment prologue of the tictactoe branch of
`handleGameClick` (src lines 1984-1994): the first toucher becomes X, a
later, different toucher becomes O. -/
def tttAssign (sockId : SocketId) (g : TicTacToe) : TicTacToe :=
  let g1 := if g.playerX.isNone then { g with playerX := some sockId } else g
  if g1.playerO.isNone ∧ g1.playerX ≠ some sockId then
    { g1 with playerO := some sockId }
  else g1

/-- The clicked cell index `row * 3 + col` (src lines 2007-2010), computed
with `Math.floor` on the scaled offsets. -/
def tttCellIndex (pos : Point) (g : TicTacToe) : Int :=
  let cellSize := g.size / 3
  let col := ⌊(pos.x - g.x) / cellSize⌋
  let row := ⌊(pos.y - g.y) / cellSize⌋
  row * 3 + col

/-- `game.board[cellIndex] === null` (src line 2013): true exactly when the
index is in bounds and the slot holds `null` (out of bounds gives
`undefined`, and `undefined === null` is false in JS). -/
def boardCellIsNull (board : List (Option Mark)) (i : Int) : Bool :=
  if 0 ≤ i ∧ i.toNat < board.length then (board.getD i.toNat none).isNone
  else false

/-- The tictactoe branch of `handleGameClick` (src lines 1973-2041) applied
to one game element: bounds check, game-over check, player assignment, turn
check, then the move on an empty cell (set the cell, detect winner or flip
the player) with a `game_move` emission.  The returned `Bool` is whether a
`game_move` was emitted. -/
def tttClick (sockId : SocketId) (pos : Point) (g : TicTacToe) :
    TicTacToe × Bool :=
  if pos.x ≥ g.x ∧ pos.x ≤ g.x + g.size ∧ pos.y ≥ g.y ∧ pos.y ≤ g.y + g.size then
    if g.winner.isSome then (g, false)
    else
      let g1 := tttAssign sockId g
      let isPX := g1.playerX = some sockId
      let isPO := g1.playerO = some sockId
      if (g1.currentPlayer = .X ∧ ¬ isPX) ∨ (g1.currentPlayer = .O ∧ ¬ isPO) then
        (g1, false)
      else
        let i := tttCellIndex pos g1
        if boardCellIsNull g1.board i then
          let board1 := g1.board.set i.toNat (some g1.currentPlayer)
          match checkTicTacToeWinner board1 with
          | some (w, l) =>
              ({ g1 with board := board1, winner := some w, winLine := l }, true)
          | none =>
              ({ g1 with board := board1,
                         currentPlayer := g1.currentPlayer.other }, true)
        else (g1, false)
  else (g, false)

/-! ### Ping-pong physics tick (src lines 2463-2572) -/

/-- `resetBall` (src lines 2567-2572).  `r1` and `r2` stand for the two
`Math.random()` draws. -/
def resetBall (r1 r2 : ℚ) (g : PingPong) : PingPong :=
  { g with ball := { g.ball with
      x := g.width / 2,
      y := g.height / 2,
      dx := (if r1 > 1 / 2 then 1 else -1) * 4,
      dy := (r2 - 1 / 2) * 4 } }

set_option maxHeartbeats 1600000 in
/-- The ball-physics block of the `startPingPongLoop` interval callback
(src lines 2495-2557): ball motion, wall and paddle collisions, scoring with
`resetBall`, and winner detection at 7 points.  `dt` is the already-computed
`deltaTime` and `r1 r2 r3 r4` stand for the `Math.random()` draws of the up
to two `resetBall` calls. -/
def pingPongPhysics (r1 r2 r3 r4 dt : ℚ) (g1 : PingPong) : PingPong :=
  let b0 := g1.ball
  let b1 := { b0 with x := b0.x + b0.dx * dt, y := b0.y + b0.dy * dt }
  let b2 :=
    if b1.y - b1.radius ≤ 0 ∨ b1.y + b1.radius ≥ g1.height then
      { b1 with dy := -b1.dy,
                y := if b1.y - b1.radius ≤ 0 then b1.radius
                     else g1.height - b1.radius }
    else b1
  let b3 :=
    if b2.x - b2.radius ≤ g1.paddleLeft.x + g1.paddleLeft.width ∧
        b2.x ≥ g1.paddleLeft.x ∧ b2.y ≥ g1.paddleLeft.y ∧
        b2.y ≤ g1.paddleLeft.y + g1.paddleLeft.height then
      { b2 with dx := |b2.dx|,
                x := g1.paddleLeft.x + g1.paddleLeft.width + b2.radius,
                dy := ((b2.y - g1.paddleLeft.y) / g1.paddleLeft.height - 1 / 2) * 8 }
    else b2
  let b4 :=
    if b3.x + b3.radius ≥ g1.paddleRight.x ∧
        b3.x ≤ g1.paddleRight.x + g1.paddleRight.width ∧
        b3.y ≥ g1.paddleRight.y ∧
        b3.y ≤ g1.paddleRight.y + g1.paddleRight.height then
      { b3 with dx := -|b3.dx|,
                x := g1.paddleRight.x - b3.radius,
                dy := ((b3.y - g1.paddleRight.y) / g1.paddleRight.height - 1 / 2) * 8 }
    else b3
  let g2 := { g1 with ball := b4 }
  let g3 :=
    if g2.ball.x - g2.ball.radius ≤ 0 then
      let ga := { g2 with paddleRight :=
          { g2.paddleRight with score := g2.paddleRight.score + 1 } }
      let gb := resetBall r1 r2 ga
      if gb.paddleRight.score ≥ 7 then { gb with winner := some .right } else gb
    else g2
  let g4 :=
    if g3.ball.x + g3.ball.radius ≥ g3.width then
      let ga := { g3 with paddleLeft :=
          { g3.paddleLeft with score := g3.paddleLeft.score + 1 } }
      let gb := resetBall r3 r4 ga
      if gb.paddleLeft.score ≥ 7 then { gb with winner := some .left } else gb
    else g3
  g4

/-- One body execution of the `setInterval` callback of `startPingPongLoop`
(src lines 2471-2564), for a game element that is present at its index.
`localId` is this client's `socket.id`, `now` is `Date.now()`, and
`r1 r2 r3 r4` stand for the `Math.random()` draws of the up to two
`resetBall` calls inside the physics block.  The returned `Bool` is whether
the tick emitted a `game_move` (src line 2560); the physics block runs only
when `socket.id === game.playerLeft` (src line 2495). -/
def pingPongTick (localId : SocketId) (now : ℚ) (r1 r2 r3 r4 : ℚ)
    (g : PingPong) : PingPong × Bool :=
  if g.winner.isSome ∨ g.gameStarted = false ∨ g.paused = true then (g, false)
  else if g.playerLeft.isNone ∨ g.playerRight.isNone then (g, false)
  else
    let dt := (now - g.lastUpdate) / (1667 / 100 : ℚ)
    let g1 := { g with lastUpdate := now }
    if some localId = g1.playerLeft then
      (pingPongPhysics r1 r2 r3 r4 dt g1, true)
    else
      (g1, false)

/-! ### Laser-freedom predicates (for the ephemeral-channel claim) -/

/-- No room of the storage holds a laser path object among its elements. -/
def storageLaserFree (st : ServerState) : Bool :=
  st.roomStorage.all (fun p => !containsLaser p.2.elements)

/-- The event's element payload (if any) carries no laser path object.  The
client never sends one outside `laser_pointer`: laser strokes go to the
separate `laserPaths` array (src line 1561), never into `paths`. -/
def eventLaserFree : ClientEvent → Bool
  | .newElement _ e => !e.isLaser
  | .fullSync _ data => !containsLaser data
  | .gameMove _ _ g => !g.isLaser
  | _ => true

/-- A `canvas_data` message carries no laser path object (other messages are
not element-sequence reads). -/
def msgLaserFree : ServerMsg → Bool
  | .canvasData es => !containsLaser es
  | _ => true

/-! ### Concrete sample values used to instantiate the theorems -/

/-- A 3-point pen stroke, as in the spec's join scenario. -/
def sampleLine : Element :=
  .line { color := "#000000", brushSize := 3, tool := "pen", opacity := none,
          points := [⟨0, 0⟩, ⟨1, 1⟩, ⟨2, 0⟩] }

/-- A freshly placed ping-pong game (the creation literal of src lines
1937-1953 at position (100, 100)). -/
def freshPingPong : PingPong :=
  { x := 100, y := 100, width := 600, height := 400,
    ball := { x := 300, y := 200, dx := 4, dy := 3, radius := 8 },
    paddleLeft := { x := 20, y := 170, width := 12, height := 60, score := 0 },
    paddleRight := { x := 568, y := 170, width := 12, height := 60, score := 0 },
    playerLeft := none, playerRight := none,
    gameStarted := false, paused := false, winner := none, lastUpdate := 0 }

/-- The same game once both paddles are claimed (left by A, right by B) and
the match has started. -/
def samplePingPong : PingPong :=
  { freshPingPong with playerLeft := some ("A"), playerRight := some ("B"),
                       gameStarted := true }

/-- `samplePingPong` with a different ball position, as a non-authoritative
connection might submit it. -/
def samplePingPongMoved : PingPong :=
  { samplePingPong with ball := { samplePingPong.ball with x := 999 } }

/-- A freshly placed tic-tac-toe game (the creation literal of src lines
1914-1926 at position (100, 100), size 300). -/
def freshTicTacToe : TicTacToe :=
  { x := 100, y := 100, size := 300,
    board := List.replicate 9 none,
    currentPlayer := .X, winner := none, winLine := none,
    playerX := none, playerO := none }

/-- A tic-tac-toe game after X (connection A) has taken the center: it is
O's turn and the O seat is still free. -/
def occupiedTTT : TicTacToe :=
  { freshTicTacToe with
      playerX := some ("A"), currentPlayer := .O,
      board := (List.replicate 9 (none : Option Mark)).set 4 (some .X) }

/-- A room holding one line element. -/
def roomA : Room :=
  { elements := [sampleLine], chat := [], background := "dots" }

/-- A server state with room 1 populated by `roomA` and members A and B. -/
def stateAB : ServerState :=
  { roomStorage := [(("1"), roomA)], rooms := [(("1"), [("A"), ("B")])] }

/-- A room holding the running ping-pong game. -/
def ppRoom : Room :=
  { elements := [Element.game (.pingpong samplePingPong)], chat := [],
    background := "dots" }

/-- A server state with the ping-pong room and members A and B. -/
def ppState : ServerState :=
  { roomStorage := [(("1"), ppRoom)], rooms := [(("1"), [("A"), ("B")])] }

/-- An idle client mirroring one line element, no drag in progress. -/
def idleClient : ClientState :=
  { paths := [sampleLine], isLocalUpdate := false, selectedImage := none,
    isDraggingImage := false, isResizingImage := false }

/-- A client that has just dragged the image at index 0. -/
def draggingClient : ClientState :=
  { paths := [sampleLine], isLocalUpdate := false, selectedImage := some 0,
    isDraggingImage := true, isResizingImage := false }

/-- A one-point laser payload. -/
def sampleLaser : Laser :=
  { points := [⟨1, 2⟩], timestamp := 5 }

/-- A trace: A draws a laser in room 1, then C joins room 1. -/
def laserTrace : List TraceStep :=
  [{ sender := ("A"), now := 0, event := .laserPointer ("1") sampleLaser },
   { sender := ("C"), now := 1, event := .joinRoom ("1") }]

/-! ### Helper lemmas -/

theorem alistGet_alistSet_self {β : Type} (l : List (String × β)) (k : String) (v : β) :
    alistGet (alistSet l k v) k = some v := by
  induction l with
  | nil => simp [alistGet, alistSet]
  | cons hd tl ih =>
      by_cases h : hd.1 = k
      · simp [alistGet, alistSet, h]
      · simpa [alistGet, alistSet, h] using ih

theorem alistGet_alistSet_ne {β : Type} (l : List (String × β)) (k k1 : String) (v : β)
    (h : k1 ≠ k) : alistGet (alistSet l k v) k1 = alistGet l k1 := by
  induction l with
  | nil =>
      have hne : ¬ k = k1 := fun hh => h hh.symm
      simp [alistGet, alistSet, hne]
  | cons hd tl ih =>
      obtain ⟨k0, v0⟩ := hd
      by_cases hk : k0 = k
      · subst hk
        have hne : ¬ k0 = k1 := fun hh => h hh.symm
        simp [alistGet, alistSet, hne]
      · by_cases hk1 : k0 = k1
        · subst hk1
          simp [alistGet, alistSet, hk, ih]
        · simp [alistGet, alistSet, hk, hk1, ih]

theorem alistSet_eq_self {β : Type} (l : List (String × β)) (k : String) (v : β)
    (h : alistGet l k = some v) : alistSet l k v = l := by
  induction l with
  | nil => simp [alistGet] at h
  | cons hd tl ih =>
      by_cases hk : hd.1 = k
      · obtain ⟨k0, v0⟩ := hd
        simp only at hk
        subst hk
        simp [alistGet] at h
        simp [alistSet, h]
      · simp only [alistGet, hk, if_false] at h
        obtain ⟨k0, v0⟩ := hd
        simp only at hk
        simp [alistSet, hk, ih h]

theorem alistGet_mem {β : Type} (l : List (String × β)) (k : String) (v : β)
    (h : alistGet l k = some v) : (k, v) ∈ l := by
  induction l with
  | nil => simp [alistGet] at h
  | cons hd tl ih =>
      by_cases hk : hd.1 = k
      · obtain ⟨k0, v0⟩ := hd
        simp only at hk
        subst hk
        simp [alistGet] at h
        simp [h]
      · simp only [alistGet, hk, if_false] at h
        exact List.mem_cons_of_mem _ (ih h)

theorem mem_broadcastTo {st : ServerState} {room : RoomId} {sender : SocketId}
    {msg : ServerMsg} {p : SocketId × ServerMsg}
    (hp : p ∈ broadcastTo st room sender msg) :
    p.1 ≠ sender ∧ p.1 ∈ roomMembers st room ∧ p.2 = msg := by
  unfold broadcastTo at hp
  rcases List.mem_map.1 hp with ⟨s, hs, rfl⟩
  rcases List.mem_filter.1 hs with ⟨hmem, hdec⟩
  refine ⟨?_, hmem, rfl⟩
  simpa using hdec

theorem socketJoin_roomStorage (st : ServerState) (sock : SocketId) (room : RoomId) :
    (socketJoin st sock room).roomStorage = st.roomStorage := by
  by_cases h : sock ∈ roomMembers st room <;> simp [socketJoin, h]

theorem serverStep_out_shape (sender : SocketId) (now : Nat) (st : ServerState)
    (ev : ClientEvent) (room : RoomId) (h : eventRoom ev = some room) :
    (serverStep sender now st ev).2 = [] ∨
      ∃ msg, (serverStep sender now st ev).2 = broadcastTo st room sender msg := by
  cases ev with
  | joinRoom r => simp [eventRoom] at h
  | newElement r e =>
      simp only [eventRoom, Option.some.injEq] at h
      subst h
      simp only [serverStep]
      cases halist : alistGet st.roomStorage r with
      | none => exact Or.inl rfl
      | some rm => exact Or.inr ⟨_, rfl⟩
  | fullSync r d =>
      simp only [eventRoom, Option.some.injEq] at h
      subst h
      simp only [serverStep]
      cases halist : alistGet st.roomStorage r with
      | none => exact Or.inl rfl
      | some rm => exact Or.inr ⟨_, rfl⟩
  | chatMessage r t =>
      simp only [eventRoom, Option.some.injEq] at h
      subst h
      simp only [serverStep]
      cases halist : alistGet st.roomStorage r with
      | none => exact Or.inl rfl
      | some rm => exact Or.inr ⟨_, rfl⟩
  | laserPointer r l =>
      simp only [eventRoom, Option.some.injEq] at h
      subst h
      simp only [serverStep]
      cases halist : alistGet st.roomStorage r with
      | none => exact Or.inl rfl
      | some rm => exact Or.inr ⟨_, rfl⟩
  | backgroundChange r b =>
      simp only [eventRoom, Option.some.injEq] at h
      subst h
      simp only [serverStep]
      cases halist : alistGet st.roomStorage r with
      | none => exact Or.inl rfl
      | some rm => exact Or.inr ⟨_, rfl⟩
  | gameMove r i g =>
      simp only [eventRoom, Option.some.injEq] at h
      subst h
      simp only [serverStep]
      cases halist : alistGet st.roomStorage r with
      | none => exact Or.inl rfl
      | some rm => exact Or.inr ⟨_, rfl⟩

/-- C4: for every room-scoped event (new_element, full_sync, chat_message,
laser_pointer, background_change, game_move) emitted by connection `sender`
into room `room`, every resulting emission of the dispatcher goes to a member
of `room` other than `sender`; the sender never receives the event back. -/
theorem roomScoped_no_self_echo (sender : SocketId) (now : Nat) (st : ServerState)
    (ev : ClientEvent) (room : RoomId) (h : eventRoom ev = some room) :
    ∀ p ∈ (serverStep sender now st ev).2,
      p.1 ≠ sender ∧ p.1 ∈ roomMembers st room := by
  intro p hp
  rcases serverStep_out_shape sender now st ev room h with hout | ⟨msg, hout⟩
  · rw [hout] at hp
    cases hp
  · rw [hout] at hp
    have hb := mem_broadcastTo hp
    exact ⟨hb.1, hb.2.1⟩

/-- Witness for C4: connection A sends a chat message into room 1 of
`stateAB`; the only delivery goes to B, not back to A. -/
theorem roomScoped_no_self_echo_witness :
    ((("B") : SocketId),
        ServerMsg.chatReceived { text := "hello", senderId := "A", timestamp := 7 }).1 ≠ ("A")
    ∧ ((("B") : SocketId),
        ServerMsg.chatReceived { text := "hello", senderId := "A", timestamp := 7 }).1
        ∈ roomMembers stateAB ("1") :=
  roomScoped_no_self_echo ("A") 7 stateAB (.chatMessage ("1") ("hello")) ("1") (by decide)
    ((("B") : SocketId),
        ServerMsg.chatReceived { text := "hello", senderId := "A", timestamp := 7 })
    (by decide)

/-- C6: a room-scoped event (anything but join) whose room key is absent from
`roomStorage` leaves the whole server state unchanged and emits nothing to
any connection; no error goes back to the sender. -/
theorem unknown_room_event_dropped (sender : SocketId) (now : Nat) (st : ServerState)
    (ev : ClientEvent) (room : RoomId) (h : eventRoom ev = some room)
    (habs : alistGet st.roomStorage room = none) :
    serverStep sender now st ev = (st, []) := by
  cases ev with
  | joinRoom r => simp [eventRoom] at h
  | newElement r e =>
      simp only [eventRoom, Option.some.injEq] at h
      subst h
      simp [serverStep, habs]
  | fullSync r d =>
      simp only [eventRoom, Option.some.injEq] at h
      subst h
      simp [serverStep, habs]
  | chatMessage r t =>
      simp only [eventRoom, Option.some.injEq] at h
      subst h
      simp [serverStep, habs]
  | laserPointer r l =>
      simp only [eventRoom, Option.some.injEq] at h
      subst h
      simp [serverStep, habs]
  | backgroundChange r b =>
      simp only [eventRoom, Option.some.injEq] at h
      subst h
      simp [serverStep, habs]
  | gameMove r i g =>
      simp only [eventRoom, Option.some.injEq] at h
      subst h
      simp [serverStep, habs]

/-- Witness for C6: a chat message into the unknown room 9 of `stateAB`
changes nothing and emits nothing. -/
theorem unknown_room_event_dropped_witness :
    serverStep ("A") 7 stateAB (.chatMessage ("9") ("hello")) = (stateAB, []) :=
  unknown_room_event_dropped ("A") 7 stateAB (.chatMessage ("9") ("hello")) ("9")
    (by decide) (by decide)

/-- C5: a join on an unseen room id creates the room as
`{elements: [], chat: [], background: 'dots'}` and a join on an existing room
leaves `roomStorage` unchanged (creation is idempotent and total); in both
cases the sender — and only the sender — receives the room's current
elements, chat history, and background (for any background other than the
empty string the value sent is exactly the stored one; the handler sends
`background || 'dots'`, src line 82). -/
theorem join_room_lazy_creation (sender : SocketId) (now : Nat) (st : ServerState)
    (roomId : RoomId) :
    (alistGet st.roomStorage roomId = none →
        (serverStep sender now st (.joinRoom roomId)).1.roomStorage
          = alistSet st.roomStorage roomId Room.fresh
        ∧ (serverStep sender now st (.joinRoom roomId)).2
          = [(sender, .canvasData []), (sender, .chatHistory []),
             (sender, .backgroundUpdated ("dots"))])
    ∧ (∀ r, alistGet st.roomStorage roomId = some r →
        (serverStep sender now st (.joinRoom roomId)).1.roomStorage = st.roomStorage
        ∧ (serverStep sender now st (.joinRoom roomId)).2
          = [(sender, .canvasData r.elements), (sender, .chatHistory r.chat),
             (sender, .backgroundUpdated (orDots r.background))]
        ∧ (r.background ≠ "" →
            (serverStep sender now st (.joinRoom roomId)).2
              = [(sender, .canvasData r.elements), (sender, .chatHistory r.chat),
                 (sender, .backgroundUpdated r.background)]))
    ∧ (∀ p ∈ (serverStep sender now st (.joinRoom roomId)).2, p.1 = sender) := by
  have hst : (socketJoin st sender roomId).roomStorage = st.roomStorage :=
    socketJoin_roomStorage st sender roomId
  refine ⟨?_, ?_, ?_⟩
  · intro habs
    simp [serverStep, hst, habs, alistGet_alistSet_self, Room.fresh, orDots]
  · intro r hr
    refine ⟨?_, ?_, ?_⟩
    · simp [serverStep, hst, hr]
    · simp [serverStep, hst, hr]
    · intro hb
      simp [serverStep, hst, hr, orDots, hb]
  · intro p hp
    simp only [serverStep, hst] at hp
    cases halist : alistGet st.roomStorage roomId with
    | none =>
        rw [halist] at hp
        simp at hp
        rcases hp with h1 | h1 | h1 <;> rw [h1]
    | some r =>
        rw [halist] at hp
        simp at hp
        rcases hp with h1 | h1 | h1 <;> rw [h1]

/-- Witness for C5: joining the unseen room 2 of `stateAB` creates it fresh
and answers the sender alone with empty canvas, empty chat, dots. -/
theorem join_room_lazy_creation_witness :
    (serverStep ("C") 0 stateAB (.joinRoom ("2"))).1.roomStorage
      = alistSet stateAB.roomStorage ("2") Room.fresh
    ∧ (serverStep ("C") 0 stateAB (.joinRoom ("2"))).2
      = [(("C"), .canvasData []), (("C"), .chatHistory []),
         (("C"), .backgroundUpdated ("dots"))] :=
  (join_room_lazy_creation ("C") 0 stateAB ("2")).1 (by decide)

/-- C9: a new_element event on an existing room appends the element at index
`r.elements.length` (the length before the append), the length grows by
exactly 1, and every previously stored element is unchanged. -/
theorem new_element_append (sender : SocketId) (now : Nat) (st : ServerState)
    (room : RoomId) (el : Element) (r : Room)
    (h : alistGet st.roomStorage room = some r) :
    alistGet (serverStep sender now st (.newElement room el)).1.roomStorage room
      = some { r with elements := r.elements ++ [el] }
    ∧ (r.elements ++ [el]).length = r.elements.length + 1
    ∧ (r.elements ++ [el])[r.elements.length]? = some el
    ∧ ∀ i < r.elements.length, (r.elements ++ [el])[i]? = r.elements[i]? := by
  refine ⟨?_, by simp, List.getElem?_concat_length _ _, ?_⟩
  · simp [serverStep, h, alistGet_alistSet_self]
  · intro i hi
    exact List.getElem?_append_left hi

/-- Witness for C9: appending a fresh tic-tac-toe to room 1 of `stateAB`
stores it at index 1 (the previous length) after the untouched line. -/
theorem new_element_append_witness :
    alistGet (serverStep ("A") 0 stateAB
        (.newElement ("1") (Element.game (.tictactoe freshTicTacToe)))).1.roomStorage ("1")
      = some { roomA with
          elements := roomA.elements ++ [Element.game (.tictactoe freshTicTacToe)] }
    ∧ (roomA.elements ++ [Element.game (.tictactoe freshTicTacToe)]).length
      = roomA.elements.length + 1 :=
  ⟨(new_element_append ("A") 0 stateAB ("1")
      (Element.game (.tictactoe freshTicTacToe)) roomA (by decide)).1,
   (new_element_append ("A") 0 stateAB ("1")
      (Element.game (.tictactoe freshTicTacToe)) roomA (by decide)).2.1⟩

/-- Counterexample to C2 as stated: in `stateAB` index 0 of room 1 holds a
line element, not a game, yet a game_move at index 0 replaces it — the
handler (src line 146) only tests that the slot is occupied, not that it
holds a game element. -/
theorem game_move_replaces_non_game :
    Element.isGame sampleLine = false
    ∧ (serverStep ("A") 0 stateAB
        (.gameMove ("1") 0 (Element.game (.tictactoe freshTicTacToe)))).1.roomStorage
      = [(("1"), { roomA with elements := [Element.game (.tictactoe freshTicTacToe)] })] := by
  constructor
  · rfl
  · rfl

/-- C2 as amended: a game_move on an existing room replaces the element at
`gameIndex` whenever that index currently holds an element of any type; when
the index is out of bounds the mutation is dropped (the handler logs the
inconsistency) and the whole server state, in particular the elements
sequence, is unchanged.  The handler is a total function: no exception
propagates. -/
theorem game_move_replace_or_drop (sender : SocketId) (now : Nat) (st : ServerState)
    (room : RoomId) (gameIndex : Nat) (game : Element) (r : Room)
    (h : alistGet st.roomStorage room = some r) :
    (gameIndex < r.elements.length →
        alistGet (serverStep sender now st
            (.gameMove room gameIndex game)).1.roomStorage room
          = some { r with elements := r.elements.set gameIndex game })
    ∧ (¬ gameIndex < r.elements.length →
        (serverStep sender now st (.gameMove room gameIndex game)).1 = st) := by
  constructor
  · intro hlt
    simp [serverStep, h, hlt, alistGet_alistSet_self]
  · intro hge
    simp only [serverStep, h]
    rw [if_neg hge]
    have : alistSet st.roomStorage room r = st.roomStorage := alistSet_eq_self _ _ _ h
    simp [this]

/-- Witness for C2 (amended): in `stateAB` a game_move at the in-bounds
index 0 replaces the slot, and one at the out-of-bounds index 5 leaves the
state untouched. -/
theorem game_move_replace_or_drop_witness :
    alistGet (serverStep ("A") 0 stateAB
        (.gameMove ("1") 0 (Element.game (.tictactoe freshTicTacToe)))).1.roomStorage ("1")
      = some { roomA with
          elements := roomA.elements.set 0 (Element.game (.tictactoe freshTicTacToe)) }
    ∧ (serverStep ("A") 0 stateAB
        (.gameMove ("1") 5 (Element.game (.tictactoe freshTicTacToe)))).1 = stateAB :=
  ⟨(game_move_replace_or_drop ("A") 0 stateAB ("1") 0
      (Element.game (.tictactoe freshTicTacToe)) roomA (by decide)).1 (by decide),
   (game_move_replace_or_drop ("A") 0 stateAB ("1") 5
      (Element.game (.tictactoe freshTicTacToe)) roomA (by decide)).2 (by decide)⟩

/-- C10: a game_move on an existing room broadcasts
`game_move_received(gameIndex, game)` to the other room members
unconditionally — the emit (src line 157) sits outside the index check — so
even when the index holds no element and the store mutation is dropped, the
other clients are still told of the update the store did not apply. -/
theorem game_move_broadcast_unconditional (sender : SocketId) (now : Nat)
    (st : ServerState) (room : RoomId) (gameIndex : Nat) (game : Element) (r : Room)
    (h : alistGet st.roomStorage room = some r) :
    (serverStep sender now st (.gameMove room gameIndex game)).2
      = broadcastTo st room sender (.gameMoveReceived gameIndex game)
    ∧ (¬ gameIndex < r.elements.length →
        (serverStep sender now st (.gameMove room gameIndex game)).1 = st) := by
  constructor
  · simp [serverStep, h]
  · intro hge
    simp only [serverStep, h]
    rw [if_neg hge]
    have : alistSet st.roomStorage room r = st.roomStorage := alistSet_eq_self _ _ _ h
    simp [this]

/-- Witness for C10: a game_move at the stale index 5 of room 1 in `stateAB`
changes nothing in the store, yet B still receives game_move_received. -/
theorem game_move_broadcast_unconditional_witness :
    (serverStep ("A") 0 stateAB
        (.gameMove ("1") 5 (Element.game (.tictactoe freshTicTacToe)))).2
      = broadcastTo stateAB ("1") ("A")
          (.gameMoveReceived 5 (Element.game (.tictactoe freshTicTacToe)))
    ∧ (serverStep ("A") 0 stateAB
        (.gameMove ("1") 5 (Element.game (.tictactoe freshTicTacToe)))).1 = stateAB :=
  ⟨(game_move_broadcast_unconditional ("A") 0 stateAB ("1") 5
      (Element.game (.tictactoe freshTicTacToe)) roomA (by decide)).1,
   (game_move_broadcast_unconditional ("A") 0 stateAB ("1") 5
      (Element.game (.tictactoe freshTicTacToe)) roomA (by decide)).2 (by decide)⟩

/-- Counterexample to C3 as stated: the throttledSync timeout body
(src lines 1816-1824) emits a full_sync while `isLocalUpdate` is false and
leaves it false — a full-state synchronization emission with the flag not
raised immediately before it (syncToServer, src lines 1840-1844, behaves the
same way). -/
theorem throttled_sync_emits_without_flag :
    (throttledSyncFire idleClient).2 = [.fullSync 1 [sampleLine]]
    ∧ idleClient.isLocalUpdate = false
    ∧ (throttledSyncFire idleClient).1.isLocalUpdate = false
    ∧ (syncToServer idleClient).2 = [.fullSync 1 [sampleLine]]
    ∧ (syncToServer idleClient).1.isLocalUpdate = false :=
  ⟨rfl, rfl, rfl, rfl, rfl⟩

/-- C3 as amended: only the image drag/resize final sync of handlePointerUp
raises `isLocalUpdate` — raised before its full_sync emission and lowered by
the timeout it schedules with the fixed 500 ms delay — while the throttled
and explicit syncs emit full_sync without touching the flag; and every
incoming canvas_data that arrives while the flag is raised is discarded,
leaving the client state unchanged. -/
theorem echo_suppression_amended :
    (∀ (st : ClientState) (moved : ℚ),
        ((st.isDraggingImage || st.isResizingImage) && st.selectedImage.isSome
            && decide (moved > 5)) = true →
        (pointerUpFinalSync st moved).1.isLocalUpdate = true
        ∧ (pointerUpFinalSync st moved).2.1 = [.fullSync 1 st.paths]
        ∧ (pointerUpFinalSync st moved).2.2 = some 500
        ∧ localUpdateTimeout (pointerUpFinalSync st moved).1
            = { st with isLocalUpdate := false })
    ∧ (∀ st : ClientState, (throttledSyncFire st).1.isLocalUpdate = st.isLocalUpdate
        ∧ (syncToServer st).1.isLocalUpdate = st.isLocalUpdate)
    ∧ (∀ (st : ClientState) (data : List Element),
        st.isLocalUpdate = true → onCanvasData st data = st) := by
  refine ⟨?_, ?_, ?_⟩
  · intro st moved hcond
    simp [pointerUpFinalSync, hcond, localUpdateTimeout]
  · intro st
    exact ⟨rfl, rfl⟩
  · intro st data h
    simp [onCanvasData, h]

/-- Witness for C3 (amended): a client that has just dragged an image raises
the flag on its final sync, and a raised flag makes canvas_data a no-op. -/
theorem echo_suppression_amended_witness :
    (pointerUpFinalSync draggingClient 10).1.isLocalUpdate = true
    ∧ onCanvasData { idleClient with isLocalUpdate := true } []
        = { idleClient with isLocalUpdate := true } :=
  ⟨(echo_suppression_amended.1 draggingClient 10 (by decide)).1,
   echo_suppression_amended.2.2 { idleClient with isLocalUpdate := true } [] (by decide)⟩

/-- Counterexample to C1 as stated: connection B is not `playerLeft` of the
stored ping-pong game (A is), yet its game_move carrying a changed ball.x is
accepted into the authoritative store and broadcast onward to A — nothing in
the code rejects or ignores ball-state changes attributed to a
non-playerLeft connection (the server's game_move handler, src lines
140-161, never inspects the sender). -/
theorem ball_change_by_non_authority_accepted :
    samplePingPong.playerLeft = some ("A")
    ∧ samplePingPongMoved.ball.x ≠ samplePingPong.ball.x
    ∧ (serverStep ("B") 0 ppState
        (.gameMove ("1") 0 (Element.game (.pingpong samplePingPongMoved)))).1.roomStorage
      = [(("1"), { ppRoom with elements := [Element.game (.pingpong samplePingPongMoved)] })]
    ∧ (serverStep ("B") 0 ppState
        (.gameMove ("1") 0 (Element.game (.pingpong samplePingPongMoved)))).2
      = [(("A"), .gameMoveReceived 0 (Element.game (.pingpong samplePingPongMoved)))] := by
  refine ⟨rfl, by decide, rfl, rfl⟩

/-- C1 as amended: the client-side physics step of the ping-pong loop
advances the ball only when the local connection is `playerLeft` — for any
other connection the tick leaves the ball untouched and emits nothing — and
every receiving connection overwrites its local copy of the element
wholesale on game_move_received; but no attribution check exists anywhere:
the store accepts a game_move from any connection (see the counterexample),
so "rejected or ignored" does not hold. -/
theorem pingpong_authority_amended :
    (∀ (localId : SocketId) (now r1 r2 r3 r4 : ℚ) (g : PingPong),
        some localId ≠ g.playerLeft →
        (pingPongTick localId now r1 r2 r3 r4 g).1.ball = g.ball
        ∧ (pingPongTick localId now r1 r2 r3 r4 g).2 = false)
    ∧ (∀ (localId : SocketId) (now r1 r2 r3 r4 : ℚ) (g : PingPong),
        (pingPongTick localId now r1 r2 r3 r4 g).2 = true →
        some localId = g.playerLeft)
    ∧ (∀ (st : ClientState) (gameIndex : Nat) (game : Element),
        gameIndex < st.paths.length →
        onGameMoveReceived st gameIndex game
          = { st with paths := st.paths.set gameIndex game }) := by
  refine ⟨?_, ?_, ?_⟩
  · intro localId now r1 r2 r3 r4 g h
    unfold pingPongTick
    split
    · exact ⟨rfl, rfl⟩
    · split
      · exact ⟨rfl, rfl⟩
      · dsimp only
        rw [if_neg (by simpa using h)]
        exact ⟨rfl, rfl⟩
  · intro localId now r1 r2 r3 r4 g h
    unfold pingPongTick at h
    split at h
    · simp at h
    · split at h
      · simp at h
      · dsimp only at h
        by_cases hcond : some localId = g.playerLeft
        · exact hcond
        · rw [if_neg hcond] at h
          simp at h
  · intro st gameIndex game hlt
    simp [onGameMoveReceived, hlt]

/-- Witness for C1 (amended): B's tick on the A-owned game leaves the ball
as it was and emits nothing, and an in-bounds game_move_received overwrites
the mirrored element wholesale. -/
theorem pingpong_authority_amended_witness :
    ((pingPongTick ("B") 0 0 0 0 0 samplePingPong).1.ball = samplePingPong.ball
      ∧ (pingPongTick ("B") 0 0 0 0 0 samplePingPong).2 = false)
    ∧ onGameMoveReceived
        { idleClient with paths := [Element.game (.pingpong samplePingPong)] } 0
        (Element.game (.pingpong samplePingPongMoved))
      = { idleClient with
            paths := [Element.game (.pingpong samplePingPong)].set 0
              (Element.game (.pingpong samplePingPongMoved)) } :=
  ⟨pingpong_authority_amended.1 ("B") 0 0 0 0 0 samplePingPong (by decide),
   pingpong_authority_amended.2.2
     { idleClient with paths := [Element.game (.pingpong samplePingPong)] } 0
     (Element.game (.pingpong samplePingPongMoved)) (by decide)⟩

theorem tttAssign_preserves (sockId : SocketId) (g : TicTacToe) :
    (tttAssign sockId g).x = g.x ∧ (tttAssign sockId g).y = g.y
    ∧ (tttAssign sockId g).size = g.size ∧ (tttAssign sockId g).board = g.board
    ∧ (tttAssign sockId g).currentPlayer = g.currentPlayer
    ∧ (tttAssign sockId g).winner = g.winner
    ∧ (tttAssign sockId g).winLine = g.winLine := by
  unfold tttAssign
  split <;> (dsimp only; split <;> simp)

theorem tttCellIndex_assign (sockId : SocketId) (pos : Point) (g : TicTacToe) :
    tttCellIndex pos (tttAssign sockId g) = tttCellIndex pos g := by
  have h := tttAssign_preserves sockId g
  unfold tttCellIndex
  rw [h.1, h.2.1, h.2.2.1]

theorem tttCellIndex_center_occupied :
    tttCellIndex ⟨250, 250⟩ occupiedTTT = 4 := by
  unfold tttCellIndex occupiedTTT freshTicTacToe
  norm_num

theorem tttCellIndex_center_fresh :
    tttCellIndex ⟨250, 250⟩ freshTicTacToe = 4 := by
  unfold tttCellIndex freshTicTacToe
  norm_num

theorem boardCell_center_occupied :
    boardCellIsNull occupiedTTT.board (tttCellIndex ⟨250, 250⟩ occupiedTTT) = false := by
  rw [tttCellIndex_center_occupied]
  decide

/-- Counterexample to C7 as stated: on `occupiedTTT` (center cell taken by
X, O seat free) connection B clicks the occupied center; the move is
rejected and nothing is broadcast, but the click is not free of state
change: the O seat is claimed by B on the way (src lines 1991-1994). -/
theorem ttt_occupied_click_mutates :
    boardCellIsNull occupiedTTT.board (tttCellIndex ⟨250, 250⟩ occupiedTTT) = false
    ∧ tttClick ("B") ⟨250, 250⟩ occupiedTTT
        = ({ occupiedTTT with playerO := some ("B") }, false)
    ∧ occupiedTTT.playerO = none
    ∧ ({ occupiedTTT with playerO := some ("B") } : TicTacToe) ≠ occupiedTTT := by
  have hassign : tttAssign ("B") occupiedTTT
      = { occupiedTTT with playerO := some ("B") } := by decide
  refine ⟨boardCell_center_occupied, ?_, by decide, by decide⟩
  unfold tttClick
  dsimp only
  rw [tttCellIndex_assign, tttCellIndex_center_occupied, hassign]
  rw [if_pos (show (250 : ℚ) ≥ occupiedTTT.x ∧ (250 : ℚ) ≤ occupiedTTT.x + occupiedTTT.size
      ∧ (250 : ℚ) ≥ occupiedTTT.y ∧ (250 : ℚ) ≤ occupiedTTT.y + occupiedTTT.size from by
    norm_num [occupiedTTT, freshTicTacToe])]
  rw [if_neg (show ¬ occupiedTTT.winner.isSome = true from by decide)]
  rw [if_neg (show ¬ ((({ occupiedTTT with playerO := some ("B") } : TicTacToe).currentPlayer = .X
        ∧ ¬ ({ occupiedTTT with playerO := some ("B") } : TicTacToe).playerX = some ("B"))
      ∨ (({ occupiedTTT with playerO := some ("B") } : TicTacToe).currentPlayer = .O
        ∧ ¬ ({ occupiedTTT with playerO := some ("B") } : TicTacToe).playerO = some ("B")))
      from by decide)]
  rw [if_neg (show ¬ boardCellIsNull
      ({ occupiedTTT with playerO := some ("B") } : TicTacToe).board (4 : Int) = true
      from by decide)]

/-- C7 as amended: for a tictactoe game with no winner, a click inside the
board by the connection holding the mark equal to `currentPlayer` on an
empty cell `n` sets `board[n] := currentPlayer`, emits a game_move, and
either flips `currentPlayer` (no win) or records the winner and winning line
instead; a click on an occupied cell leaves board, currentPlayer, winner and
winLine unchanged and emits nothing — though a vacant player seat may still
be claimed as a side effect of the click. -/
theorem ttt_move_semantics :
    (∀ (sockId : SocketId) (pos : Point) (g : TicTacToe) (n : Nat),
        g.winner = none →
        pos.x ≥ g.x → pos.x ≤ g.x + g.size → pos.y ≥ g.y → pos.y ≤ g.y + g.size →
        tttCellIndex pos g = (n : Int) →
        n < g.board.length →
        g.board.getD n none = none →
        ((tttAssign sockId g).currentPlayer = .X →
            (tttAssign sockId g).playerX = some sockId) →
        ((tttAssign sockId g).currentPlayer = .O →
            (tttAssign sockId g).playerO = some sockId) →
        (tttClick sockId pos g).2 = true
        ∧ (tttClick sockId pos g).1.board = g.board.set n (some g.currentPlayer)
        ∧ (checkTicTacToeWinner (g.board.set n (some g.currentPlayer)) = none →
            (tttClick sockId pos g).1.currentPlayer = g.currentPlayer.other
            ∧ (tttClick sockId pos g).1.winner = none)
        ∧ (∀ w l, checkTicTacToeWinner (g.board.set n (some g.currentPlayer))
              = some (w, l) →
            (tttClick sockId pos g).1.winner = some w
            ∧ (tttClick sockId pos g).1.winLine = l))
    ∧ (∀ (sockId : SocketId) (pos : Point) (g : TicTacToe),
        boardCellIsNull g.board (tttCellIndex pos g) = false →
        (tttClick sockId pos g).1.board = g.board
        ∧ (tttClick sockId pos g).1.currentPlayer = g.currentPlayer
        ∧ (tttClick sockId pos g).1.winner = g.winner
        ∧ (tttClick sockId pos g).1.winLine = g.winLine
        ∧ (tttClick sockId pos g).2 = false) := by
  constructor
  · intro sockId pos g n hw hx1 hx2 hy1 hy2 hcell hlt hempty hX hO
    have hpres := tttAssign_preserves sockId g
    have hcell1 : tttCellIndex pos (tttAssign sockId g) = (n : Int) := by
      rw [tttCellIndex_assign, hcell]
    have hnull : boardCellIsNull (tttAssign sockId g).board
        (tttCellIndex pos (tttAssign sockId g)) = true := by
      rw [hcell1, hpres.2.2.2.1]
      unfold boardCellIsNull
      rw [if_pos (by simpa using hlt)]
      simpa using hempty
    unfold tttClick
    dsimp only
    rw [if_pos ⟨hx1, hx2, hy1, hy2⟩, if_neg (by simp [hw])]
    rw [if_neg (show ¬ (((tttAssign sockId g).currentPlayer = .X
          ∧ ¬ (tttAssign sockId g).playerX = some sockId)
        ∨ ((tttAssign sockId g).currentPlayer = .O
          ∧ ¬ (tttAssign sockId g).playerO = some sockId)) from by
      rintro (⟨hc, hp⟩ | ⟨hc, hp⟩)
      · exact hp (hX hc)
      · exact hp (hO hc))]
    rw [if_pos hnull]
    rcases hcheck : checkTicTacToeWinner ((tttAssign sockId g).board.set
        (tttCellIndex pos (tttAssign sockId g)).toNat
        (some (tttAssign sockId g).currentPlayer)) with _ | ⟨w, l⟩
    · have hset : (tttAssign sockId g).board.set
          (tttCellIndex pos (tttAssign sockId g)).toNat
          (some (tttAssign sockId g).currentPlayer)
          = g.board.set n (some g.currentPlayer) := by
        rw [hpres.2.2.2.1, hpres.2.2.2.2.1, hcell1, Int.toNat_natCast]
      rw [hset] at hcheck
      refine ⟨rfl, ?_, ?_, ?_⟩
      · simp [hset, hpres.2.2.2.1, hpres.2.2.2.2.1, hcell1]
      · intro _
        exact ⟨by simp [hpres.2.2.2.2.1], by simp [hpres.2.2.2.2.2.1, hw]⟩
      · intro w l hsome
        rw [hcheck] at hsome
        cases hsome
    · have hset : (tttAssign sockId g).board.set
          (tttCellIndex pos (tttAssign sockId g)).toNat
          (some (tttAssign sockId g).currentPlayer)
          = g.board.set n (some g.currentPlayer) := by
        rw [hpres.2.2.2.1, hpres.2.2.2.2.1, hcell1, Int.toNat_natCast]
      rw [hset] at hcheck
      refine ⟨rfl, ?_, ?_, ?_⟩
      · simp [hset, hpres.2.2.2.1, hpres.2.2.2.2.1, hcell1]
      · intro hnone
        rw [hcheck] at hnone
        cases hnone
      · intro w1 l1 hsome
        rw [hcheck] at hsome
        cases hsome
        exact ⟨rfl, rfl⟩
  · intro sockId pos g hnull
    have hpres := tttAssign_preserves sockId g
    have hnull1 : boardCellIsNull (tttAssign sockId g).board
        (tttCellIndex pos (tttAssign sockId g)) = false := by
      rw [tttCellIndex_assign, hpres.2.2.2.1]
      exact hnull
    unfold tttClick
    dsimp only
    split
    · split
      · exact ⟨rfl, rfl, rfl, rfl, rfl⟩
      · split
        · exact ⟨hpres.2.2.2.1, hpres.2.2.2.2.1, hpres.2.2.2.2.2.1,
                 hpres.2.2.2.2.2.2, rfl⟩
        · rw [if_neg (by simp [hnull1])]
          exact ⟨hpres.2.2.2.1, hpres.2.2.2.2.1, hpres.2.2.2.2.2.1,
                 hpres.2.2.2.2.2.2, rfl⟩
    · exact ⟨rfl, rfl, rfl, rfl, rfl⟩

/-- Witness for C7 (amended): A (becoming X on first touch) clicks the
center of a fresh board — cell 4 is set and a game_move goes out — while B
clicking the already-taken center of `occupiedTTT` changes neither winner
nor emits anything. -/
theorem ttt_move_semantics_witness :
    ((tttClick ("A") ⟨250, 250⟩ freshTicTacToe).2 = true
      ∧ (tttClick ("A") ⟨250, 250⟩ freshTicTacToe).1.board
          = freshTicTacToe.board.set 4 (some freshTicTacToe.currentPlayer))
    ∧ ((tttClick ("B") ⟨250, 250⟩ occupiedTTT).1.winner = occupiedTTT.winner
      ∧ (tttClick ("B") ⟨250, 250⟩ occupiedTTT).2 = false) :=
  ⟨⟨(ttt_move_semantics.1 ("A") ⟨250, 250⟩ freshTicTacToe 4 rfl
      (by norm_num [freshTicTacToe]) (by norm_num [freshTicTacToe])
      (by norm_num [freshTicTacToe]) (by norm_num [freshTicTacToe])
      tttCellIndex_center_fresh (by decide) (by decide) (by decide) (by decide)).1,
    (ttt_move_semantics.1 ("A") ⟨250, 250⟩ freshTicTacToe 4 rfl
      (by norm_num [freshTicTacToe]) (by norm_num [freshTicTacToe])
      (by norm_num [freshTicTacToe]) (by norm_num [freshTicTacToe])
      tttCellIndex_center_fresh (by decide) (by decide) (by decide) (by decide)).2.1⟩,
   ⟨(ttt_move_semantics.2 ("B") ⟨250, 250⟩ occupiedTTT boardCell_center_occupied).2.2.1,
    (ttt_move_semantics.2 ("B") ⟨250, 250⟩ occupiedTTT boardCell_center_occupied).2.2.2.2⟩⟩

theorem containsLaser_append (es : List Element) (e : Element) :
    containsLaser (es ++ [e]) = (containsLaser es || e.isLaser) := by
  simp [containsLaser]

theorem containsLaser_set (es : List Element) (i : Nat) (g : Element)
    (hes : containsLaser es = false) (hg : g.isLaser = false) :
    containsLaser (es.set i g) = false := by
  rw [containsLaser, List.any_eq_false]
  intro x hx
  rcases List.mem_or_eq_of_mem_set hx with hmem | rfl
  · rw [containsLaser, List.any_eq_false] at hes
    exact hes x hmem
  · simp [hg]

theorem alistSet_all {β : Type} (p : String × β → Bool) (l : List (String × β))
    (k : String) (v : β) (hl : l.all p = true) (hv : p (k, v) = true) :
    (alistSet l k v).all p = true := by
  induction l with
  | nil => simp [alistSet, hv]
  | cons hd tl ih =>
      obtain ⟨k0, v0⟩ := hd
      simp only [List.all_cons, Bool.and_eq_true] at hl
      by_cases hk : k0 = k
      · simp [alistSet, hk, hv, hl.2]
      · simp [alistSet, hk, hl.1, ih hl.2]

theorem all_of_alistGet {β : Type} (p : String × β → Bool) (l : List (String × β))
    (k : String) (v : β) (hl : l.all p = true) (h : alistGet l k = some v) :
    p (k, v) = true :=
  List.all_eq_true.mp hl _ (alistGet_mem l k v h)

theorem count_map_pair (msg : ServerMsg) (m : SocketId) :
    ∀ l : List SocketId, (l.map (fun s => (s, msg))).count (m, msg) = l.count m := by
  intro l
  induction l with
  | nil => rfl
  | cons a l ih =>
      simp only [List.map_cons, List.count_cons, ih]
      by_cases h : a = m
      · simp [h]
      · simp [h]

theorem count_filter_ne (sender m : SocketId) (hms : m ≠ sender) :
    ∀ l : List SocketId,
      (l.filter (fun s => decide (s ≠ sender))).count m = l.count m := by
  intro l
  induction l with
  | nil => rfl
  | cons a l ih =>
      simp only [ne_eq, decide_not] at ih ⊢
      by_cases ha : a = sender
      · subst ha
        have hma : ¬ m = a := hms
        simp [List.filter_cons, List.count_cons, ih, hma]
      · simp [List.filter_cons, List.count_cons, ha, ih]

theorem count_broadcast (st : ServerState) (room : RoomId) (sender m : SocketId)
    (msg : ServerMsg) (hnd : (roomMembers st room).Nodup)
    (hm : m ∈ roomMembers st room) (hms : m ≠ sender) :
    (broadcastTo st room sender msg).count (m, msg) = 1 := by
  rw [broadcastTo, count_map_pair, count_filter_ne sender m hms]
  exact List.count_eq_one_of_mem hnd hm

theorem storageLaserFree_socketJoin (st : ServerState) (sock : SocketId)
    (room : RoomId) : storageLaserFree (socketJoin st sock room) = storageLaserFree st := by
  unfold storageLaserFree
  rw [socketJoin_roomStorage]

theorem serverStep_laser_free (sender : SocketId) (now : Nat) (st : ServerState)
    (ev : ClientEvent) (hst : storageLaserFree st = true)
    (hev : eventLaserFree ev = true) :
    storageLaserFree (serverStep sender now st ev).1 = true
    ∧ ∀ p ∈ (serverStep sender now st ev).2, msgLaserFree p.2 = true := by
  cases ev with
  | joinRoom roomId =>
      have hjr : (socketJoin st sender roomId).roomStorage = st.roomStorage :=
        socketJoin_roomStorage st sender roomId
      have hst2 : st.roomStorage.all (fun q => !containsLaser q.2.elements) = true := hst
      cases halist : alistGet st.roomStorage roomId with
      | none =>
          refine ⟨?_, ?_⟩
          · show (serverStep sender now st (.joinRoom roomId)).1.roomStorage.all
                (fun q => !containsLaser q.2.elements) = true
            have hres : (serverStep sender now st (.joinRoom roomId)).1.roomStorage
                = alistSet st.roomStorage roomId Room.fresh := by
              simp [serverStep, hjr, halist]
            rw [hres]
            refine alistSet_all _ _ _ _ hst2 ?_
            rfl
          · intro p hp
            have hout : (serverStep sender now st (.joinRoom roomId)).2
                = [(sender, .canvasData []), (sender, .chatHistory []),
                   (sender, .backgroundUpdated ("dots"))] := by
              simp [serverStep, hjr, halist, alistGet_alistSet_self, Room.fresh, orDots]
            rw [hout] at hp
            simp only [List.mem_cons, List.not_mem_nil, or_false] at hp
            rcases hp with h1 | h1 | h1 <;> rw [h1] <;> rfl
      | some r =>
          refine ⟨?_, ?_⟩
          · show (serverStep sender now st (.joinRoom roomId)).1.roomStorage.all
                (fun q => !containsLaser q.2.elements) = true
            have hres : (serverStep sender now st (.joinRoom roomId)).1.roomStorage
                = st.roomStorage := by
              simp [serverStep, hjr, halist]
            rw [hres]
            exact hst2
          · intro p hp
            have hout : (serverStep sender now st (.joinRoom roomId)).2
                = [(sender, .canvasData r.elements), (sender, .chatHistory r.chat),
                   (sender, .backgroundUpdated (orDots r.background))] := by
              simp [serverStep, hjr, halist]
            rw [hout] at hp
            have hfree : (!containsLaser r.elements) = true :=
              all_of_alistGet _ st.roomStorage roomId r hst2 halist
            simp only [List.mem_cons, List.not_mem_nil, or_false] at hp
            rcases hp with h1 | h1 | h1 <;> rw [h1]
            · exact hfree
            · rfl
            · rfl
  | newElement room element =>
      simp only [eventLaserFree] at hev
      simp only [serverStep]
      cases halist : alistGet st.roomStorage room with
      | none => exact ⟨hst, by intro p hp; cases hp⟩
      | some r =>
          have hfree : (!containsLaser r.elements) = true :=
            all_of_alistGet _ st.roomStorage room r hst halist
          constructor
          · show (alistSet st.roomStorage room _).all _ = true
            refine alistSet_all _ _ _ _ hst ?_
            show (!containsLaser (r.elements ++ [element])) = true
            rw [containsLaser_append]
            simp only [Bool.not_eq_true'] at hfree hev ⊢
            simp [hfree, hev]
          · intro p hp
            rw [(mem_broadcastTo hp).2.2]
            rfl
  | fullSync room data =>
      simp only [eventLaserFree] at hev
      simp only [serverStep]
      cases halist : alistGet st.roomStorage room with
      | none => exact ⟨hst, by intro p hp; cases hp⟩
      | some r =>
          constructor
          · show (alistSet st.roomStorage room _).all _ = true
            exact alistSet_all _ _ _ _ hst hev
          · intro p hp
            rw [(mem_broadcastTo hp).2.2]
            exact hev
  | chatMessage room text =>
      simp only [serverStep]
      cases halist : alistGet st.roomStorage room with
      | none => exact ⟨hst, by intro p hp; cases hp⟩
      | some r =>
          have hfree : (!containsLaser r.elements) = true :=
            all_of_alistGet _ st.roomStorage room r hst halist
          constructor
          · show (alistSet st.roomStorage room _).all _ = true
            exact alistSet_all _ _ _ _ hst hfree
          · intro p hp
            rw [(mem_broadcastTo hp).2.2]
            rfl
  | laserPointer room laser =>
      simp only [serverStep]
      cases halist : alistGet st.roomStorage room with
      | none => exact ⟨hst, by intro p hp; cases hp⟩
      | some r =>
          constructor
          · exact hst
          · intro p hp
            rw [(mem_broadcastTo hp).2.2]
            rfl
  | backgroundChange room background =>
      simp only [serverStep]
      cases halist : alistGet st.roomStorage room with
      | none => exact ⟨hst, by intro p hp; cases hp⟩
      | some r =>
          have hfree : (!containsLaser r.elements) = true :=
            all_of_alistGet _ st.roomStorage room r hst halist
          constructor
          · show (alistSet st.roomStorage room _).all _ = true
            exact alistSet_all _ _ _ _ hst hfree
          · intro p hp
            rw [(mem_broadcastTo hp).2.2]
            rfl
  | gameMove room gameIndex game =>
      simp only [eventLaserFree] at hev
      simp only [serverStep]
      cases halist : alistGet st.roomStorage room with
      | none => exact ⟨hst, by intro p hp; cases hp⟩
      | some r =>
          have hfree : (!containsLaser r.elements) = true :=
            all_of_alistGet _ st.roomStorage room r hst halist
          constructor
          · show (alistSet st.roomStorage room _).all _ = true
            refine alistSet_all _ _ _ _ hst ?_
            split
            · show (!containsLaser (r.elements.set gameIndex game)) = true
              simp only [Bool.not_eq_true'] at hfree hev ⊢
              exact containsLaser_set _ _ _ hfree hev
            · exact hfree
          · intro p hp
            rw [(mem_broadcastTo hp).2.2]
            rfl

/-- C8: a laser_pointer on an existing room leaves the whole server state
unchanged and relays laser_received exactly once to each other room member;
and over any event trace whose element payloads carry no laser (the client
never puts laser strokes into `paths` or any element payload — they live in
the separate `laserPaths` array), a laser-free storage stays laser-free and
no emitted canvas_data (the payload of both the join read and the full_sync
broadcast) ever contains a laser. -/
theorem laser_ephemeral_non_persistence :
    (∀ (sender : SocketId) (now : Nat) (st : ServerState) (room : RoomId)
        (laser : Laser) (r : Room),
        alistGet st.roomStorage room = some r →
        serverStep sender now st (.laserPointer room laser)
          = (st, broadcastTo st room sender (.laserReceived laser)))
    ∧ (∀ (st : ServerState) (room : RoomId) (sender m : SocketId) (laser : Laser),
        (roomMembers st room).Nodup → m ∈ roomMembers st room → m ≠ sender →
        (broadcastTo st room sender (.laserReceived laser)).count
            (m, .laserReceived laser) = 1)
    ∧ (∀ (st : ServerState) (trace : List TraceStep),
        storageLaserFree st = true →
        (∀ s ∈ trace, eventLaserFree s.event = true) →
        storageLaserFree (serverRun st trace).1 = true
        ∧ ∀ p ∈ (serverRun st trace).2, msgLaserFree p.2 = true) := by
  refine ⟨?_, ?_, ?_⟩
  · intro sender now st room laser r h
    simp [serverStep, h]
  · intro st room sender m laser hnd hm hms
    exact count_broadcast st room sender m (.laserReceived laser) hnd hm hms
  · intro st trace hst htrace
    induction trace generalizing st with
    | nil => exact ⟨hst, by intro p hp; cases hp⟩
    | cons s rest ih =>
        have hs := serverStep_laser_free s.sender s.now st s.event hst
          (htrace s (List.mem_cons_self s rest))
        have hrest := ih (serverStep s.sender s.now st s.event).1 hs.1
          (fun x hx => htrace x (List.mem_cons_of_mem s hx))
        constructor
        · simpa [serverRun] using hrest.1
        · intro p hp
          simp only [serverRun] at hp
          rcases List.mem_append.1 hp with h1 | h2
          · exact hs.2 p h1
          · exact hrest.2 p h2

/-- Witness for C8: in `stateAB`, running A's laser followed by C's join
keeps the storage laser-free, and the laser event itself leaves the state
untouched while relaying to the other member. -/
theorem laser_ephemeral_non_persistence_witness :
    storageLaserFree (serverRun stateAB laserTrace).1 = true
    ∧ serverStep ("A") 0 stateAB (.laserPointer ("1") sampleLaser)
      = (stateAB, broadcastTo stateAB ("1") ("A") (.laserReceived sampleLaser)) :=
  ⟨(laser_ephemeral_non_persistence.2.2 stateAB laserTrace (by decide) (by decide)).1,
   laser_ephemeral_non_persistence.1 ("A") 0 stateAB ("1") sampleLaser roomA (by decide)⟩

end ADHDBoard
